import Mathlib

/-!
The site configuration record of Bekaxp/docu.

A shallow embedding of `docusaurus.config.js`. The file is one object literal
assigned to `module.exports`; evaluating it reads the current year
(`new Date().getFullYear()`) and calls `require.resolve` twice. Both are
inputs of the embedding: the year is an integer, the resolver a function
that either returns the resolved file name or fails, as `require.resolve`
does when the module is not found.

JavaScript values are embedded as `JsVal`: strings, arrays and objects, the
only kinds of value the literal contains. An object is the list of its
properties in the order the literal writes them.
-/

/-- The JavaScript values that occur in the configuration literal. -/
inductive JsVal where
  | str : String → JsVal
  | arr : List JsVal → JsVal
  | obj : List (String × JsVal) → JsVal

namespace JsVal

/-- Property read `v[k]` on an object; `none` stands for `undefined`. -/
def get? : JsVal → String → Option JsVal
  | obj kvs, k => kvs.lookup k
  | _, _ => none

/-- Whether property `k` is set on `v`. -/
def has (v : JsVal) (k : String) : Bool := (v.get? k).isSome

/-- Nested property read `v[k₁][k₂]...`. -/
def path? : JsVal → List String → Option JsVal
  | v, [] => some v
  | v, k :: ks => match v.get? k with
    | some w => path? w ks
    | none => none

/-- The property names of an object, in order. -/
def keys : JsVal → List String
  | obj kvs => kvs.map Prod.fst
  | _ => []

end JsVal

open JsVal

/-- The error type of a failed `require.resolve` (the message of the thrown error). -/
abbrev JsError := String

/-- The object literal of `docusaurus.config.js`, given the value of
`new Date().getFullYear()` and the two strings returned by
`require.resolve("./sidebars.js")` and `require.resolve("./src/css/custom.css")`. -/
def config (fullYear : Int) (sidebarPath customCss : String) : JsVal :=
  obj [
    ("title", str "Beka documentation & blog"),
    ("tagline", str "Beka documentation and blog"),
    ("url", str "https://www.beka.si"),
    ("baseUrl", str "/"),
    ("favicon", str "img/favicon.ico"),
    ("organizationName", str "Bekaxp"),
    ("projectName", str "docu"),
    ("themeConfig", obj [
      ("navbar", obj [
        ("title", str "Beka - documentation & blog"),
        ("links", arr [
          obj [
            ("to", str "docs/greeting"),
            ("activeBasePath", str "docs"),
            ("label", str "Docs"),
            ("position", str "left")
          ],
          obj [("to", str "/"), ("label", str "Blog"), ("position", str "left")],
          obj [
            ("href", str "https://github.com/Bekaxp/docu"),
            ("label", str "GitHub"),
            ("position", str "right")
          ]
        ])
      ]),
      ("footer", obj [
        ("style", str "dark"),
        ("links", arr [
          obj [
            ("title", str "Docs"),
            ("items", arr [
              obj [
                ("label", str "Style Guide"),
                ("to", str "doc1")
              ]
            ])
          ],
          obj [
            ("title", str "Social"),
            ("items", arr [
              obj [
                ("label", str "Blog"),
                ("to", str "/")
              ],
              obj [
                ("label", str "GitHub"),
                ("href", str "https://github.com/Bekaxp")
              ],
              obj [
                ("label", str "Twitter"),
                ("href", str "https://twitter.com/Beekaxp")
              ]
            ])
          ]
        ]),
        ("copyright",
          str ("Copyright © " ++ toString fullYear ++ " beka.si, Inc. Built with Docusaurus."))
      ])
    ]),
    ("presets", arr [
      arr [
        str "@docusaurus/preset-classic",
        obj [
          ("blog", obj [
            ("path", str "./blog"),
            ("routeBasePath", str "/")
          ]),
          ("docs", obj [
            ("path", str "./docs"),
            ("sidebarPath", str sidebarPath)
          ]),
          ("theme", obj [
            ("customCss", str customCss)
          ])
        ]
      ]
    ])
  ]

/-- Evaluation of `docusaurus.config.js`: the value of `module.exports`, or the
error thrown on the way. The literal is evaluated in source order; the only
sub-expressions that can throw are the two `require.resolve` calls, first the
one for `./sidebars.js`, then the one for `./src/css/custom.css`. -/
def module.exports (fullYear : Int) (resolve : String → Except JsError String) :
    Except JsError JsVal := do
  let sidebarPath ← resolve "./sidebars.js"
  let customCss ← resolve "./src/css/custom.css"
  pure (config fullYear sidebarPath customCss)

/-- A module resolver for a site rooted at `/site` that holds both requested files. -/
def resolveSite (request : String) : Except JsError String :=
  if request = "./sidebars.js" then .ok "/site/sidebars.js"
  else if request = "./src/css/custom.css" then .ok "/site/src/css/custom.css"
  else .error ("Cannot find module " ++ request)

/-- A module resolver for a site rooted at `/site` that has the stylesheet but no
`sidebars.js`. -/
def resolveNoSidebars (request : String) : Except JsError String :=
  if request = "./src/css/custom.css" then .ok "/site/src/css/custom.css"
  else .error ("Cannot find module " ++ request)

/-- The record the site of `resolveSite` exports in year `fullYear`. -/
def siteConfig (fullYear : Int) : JsVal :=
  config fullYear "/site/sidebars.js" "/site/src/css/custom.css"

/-- The required top-level keys of the configuration schema. -/
def requiredKeys : List String :=
  ["title", "tagline", "url", "baseUrl", "favicon", "organizationName", "projectName",
    "themeConfig", "presets"]

/-- The entries of `themeConfig.navbar.links`. -/
def navbarLinks (r : JsVal) : Option JsVal := r.path? ["themeConfig", "navbar", "links"]

/-- The groups of `themeConfig.footer.links`. -/
def footerLinks (r : JsVal) : Option JsVal := r.path? ["themeConfig", "footer", "links"]

/-- The text `s` is an absolute URL of scheme `https`: the scheme prefix followed by a
non-empty host. -/
def isHttpsUrl (s : String) : Bool :=
  "https://".data.isPrefixOf s.data && !((s.data.drop 8).takeWhile (· != '/')).isEmpty

/-- The text `s` begins with the text `p`. -/
def beginsWith (s p : String) : Bool := p.data.isPrefixOf s.data

/-- The elements of an array value. -/
def JsVal.elems : JsVal → List JsVal
  | arr xs => xs
  | _ => []

/-- The `to` targets of a list of link entries. -/
def toTargets (entries : List JsVal) : List String :=
  entries.filterMap fun e => match e.get? "to" with
    | some (str t) => some t
    | _ => none

/-- The `href` targets of a list of link entries. -/
def hrefTargets (entries : List JsVal) : List String :=
  entries.filterMap fun e => match e.get? "href" with
    | some (str t) => some t
    | _ => none

/-- The navbar link entries of a record. -/
def navbarEntries (r : JsVal) : List JsVal :=
  match navbarLinks r with
  | some v => v.elems
  | none => []

/-- The items of a footer link group. -/
def groupItems (g : JsVal) : List JsVal :=
  match g.get? "items" with
  | some v => v.elems
  | none => []

/-- The footer link items of a record, over all groups. -/
def footerItems (r : JsVal) : List JsVal :=
  match footerLinks r with
  | some v => v.elems.foldr (fun g acc => groupItems g ++ acc) []
  | none => []

/-- Every page-link target of the navbar and of the footer. -/
def pageTargets (r : JsVal) : List String :=
  toTargets (navbarEntries r) ++ toTargets (footerItems r)

/-! ## JSON serialisation and parsing

A model of the ECMAScript functions `JSON.stringify` (without indentation) and
`JSON.parse`, on the values of `JsVal`. Texts are sequences of Unicode scalar values.
The parser accepts the JSON grammar of strings, arrays and objects with optional
whitespace; number, boolean and null literals, and `\u` escapes of surrogate code units,
have no counterpart in `JsVal` and are rejected. -/

namespace JSON

/-- JSON whitespace: space, tab, line feed, carriage return. -/
def isWs (c : Char) : Bool := c = ' ' || c = '\t' || c = '\n' || c = '\r'

/-- Drop leading whitespace. -/
def skipWs : List Char → List Char
  | [] => []
  | c :: r => if isWs c then skipWs r else c :: r

/-- The lower-case hexadecimal digit of a number below sixteen. -/
def hexDigit (n : Nat) : Char :=
  if n < 10 then Char.ofNat (48 + n) else Char.ofNat (87 + n)

/-- The escape `\uXXXX` of a code unit. -/
def unicodeEscape (c : Char) : List Char :=
  ['\\', 'u', hexDigit (c.toNat / 4096 % 16), hexDigit (c.toNat / 256 % 16),
    hexDigit (c.toNat / 16 % 16), hexDigit (c.toNat % 16)]

/-- The JSON text of one character of a string (QuoteJSONString). -/
def quoteChar (c : Char) : List Char :=
  if c = '\x08' then ['\\', 'b']
  else if c = '\t' then ['\\', 't']
  else if c = '\n' then ['\\', 'n']
  else if c = '\x0c' then ['\\', 'f']
  else if c = '\r' then ['\\', 'r']
  else if c = '\"' then ['\\', '\"']
  else if c = '\\' then ['\\', '\\']
  else if c.toNat < 0x20 then unicodeEscape c
  else [c]

/-- The JSON text of the characters of a string, without the enclosing quotes. -/
def quoteChars : List Char → List Char
  | [] => []
  | c :: r => quoteChar c ++ quoteChars r

/-- The JSON text of a string. -/
def quote (s : String) : List Char := '\"' :: (quoteChars s.data ++ ['\"'])

mutual
/-- The JSON text of a value. -/
def ser : JsVal → List Char
  | .str s => quote s
  | .arr xs => '[' :: (serElems xs ++ [']'])
  | .obj kvs => '\x7b' :: (serFields kvs ++ ['\x7d'])
/-- The JSON texts of the elements of an array, separated by commas. -/
def serElems : List JsVal → List Char
  | [] => []
  | [x] => ser x
  | x :: y :: r => ser x ++ ',' :: serElems (y :: r)
/-- The JSON texts of the properties of an object, separated by commas. -/
def serFields : List (String × JsVal) → List Char
  | [] => []
  | [(k, v)] => quote k ++ ':' :: ser v
  | (k, v) :: p :: r => quote k ++ ':' :: (ser v ++ ',' :: serFields (p :: r))
end

/-- `JSON.stringify(v)`. -/
def stringify (v : JsVal) : String := ⟨ser v⟩

/-- The value of a hexadecimal digit, of either case. -/
def hexVal (c : Char) : Option Nat :=
  if 48 ≤ c.toNat ∧ c.toNat ≤ 57 then some (c.toNat - 48)
  else if 97 ≤ c.toNat ∧ c.toNat ≤ 102 then some (c.toNat - 87)
  else if 65 ≤ c.toNat ∧ c.toNat ≤ 70 then some (c.toNat - 55)
  else none

/-- The character denoted by a one-letter escape. -/
def unescape (e : Char) : Option Char :=
  if e = '\"' then some '\"'
  else if e = '\\' then some '\\'
  else if e = '/' then some '/'
  else if e = 'b' then some '\x08'
  else if e = 'f' then some '\x0c'
  else if e = 'n' then some '\n'
  else if e = 'r' then some '\r'
  else if e = 't' then some '\t'
  else none

/-- Parse the characters of a string up to and including the closing quote. -/
def parseChars : List Char → Option (List Char × List Char)
  | [] => none
  | c :: r =>
    if c = '\"' then some ([], r)
    else if c = '\\' then
      match r with
      | [] => none
      | e :: r1 =>
        if e = 'u' then
          match r1 with
          | h1 :: h2 :: h3 :: h4 :: r2 =>
            match hexVal h1, hexVal h2, hexVal h3, hexVal h4 with
            | some x1, some x2, some x3, some x4 =>
              let n := ((x1 * 16 + x2) * 16 + x3) * 16 + x4
              if 0xD800 ≤ n ∧ n ≤ 0xDFFF then none
              else (parseChars r2).map fun p => (Char.ofNat n :: p.1, p.2)
            | _, _, _, _ => none
          | _ => none
        else
          match unescape e with
          | some ch => (parseChars r1).map fun p => (ch :: p.1, p.2)
          | none => none
    else if c.toNat < 0x20 then none
    else (parseChars r).map fun p => (c :: p.1, p.2)

/-- Define property `k` with value `v` on an object: an existing property keeps its
place and takes the new value, a new one is added last. -/
def setKey : List (String × JsVal) → String → JsVal → List (String × JsVal)
  | [], k, v => [(k, v)]
  | (k1, v1) :: r, k, v => if k1 = k then (k1, v) :: r else (k1, v1) :: setKey r k v

/-- The object built from the members of a JSON object text, in order. -/
def mkObject (members : List (String × JsVal)) : List (String × JsVal) :=
  members.foldl (fun acc p => setKey acc p.1 p.2) []

mutual
/-- Parse one value; the fuel bounds the nesting and the number of members. -/
def parseValue : Nat → List Char → Option (JsVal × List Char)
  | 0, _ => none
  | n + 1, cs =>
    match skipWs cs with
    | [] => none
    | c :: r =>
      if c = '\"' then (parseChars r).map fun p => (.str ⟨p.1⟩, p.2)
      else if c = '[' then
        match skipWs r with
        | [] => none
        | d :: r1 =>
          if d = ']' then some (.arr [], r1)
          else (parseElems n (d :: r1)).map fun p => (.arr p.1, p.2)
      else if c = '\x7b' then
        match skipWs r with
        | [] => none
        | d :: r1 =>
          if d = '\x7d' then some (.obj [], r1)
          else (parseFields n (d :: r1)).map fun p => (.obj (mkObject p.1), p.2)
      else none
/-- Parse the elements of a non-empty array up to and including the closing bracket. -/
def parseElems : Nat → List Char → Option (List JsVal × List Char)
  | 0, _ => none
  | n + 1, cs =>
    match parseValue n cs with
    | none => none
    | some (v, r) =>
      match skipWs r with
      | [] => none
      | d :: r1 =>
        if d = ',' then (parseElems n r1).map fun p => (v :: p.1, p.2)
        else if d = ']' then some ([v], r1)
        else none
/-- Parse the members of a non-empty object up to and including the closing brace. -/
def parseFields : Nat → List Char → Option (List (String × JsVal) × List Char)
  | 0, _ => none
  | n + 1, cs =>
    match skipWs cs with
    | [] => none
    | q :: r =>
      if q = '\"' then
        match parseChars r with
        | none => none
        | some (k, r1) =>
          match skipWs r1 with
          | [] => none
          | colon :: r2 =>
            if colon = ':' then
              match parseValue n r2 with
              | none => none
              | some (v, r3) =>
                match skipWs r3 with
                | [] => none
                | d :: r4 =>
                  if d = ',' then (parseFields n r4).map fun p => ((⟨k⟩, v) :: p.1, p.2)
                  else if d = '\x7d' then some ([(⟨k⟩, v)], r4)
                  else none
            else none
      else none
end

/-- `JSON.parse(text)`: one value, then nothing but whitespace. -/
def parse (text : String) : Option JsVal :=
  match parseValue (text.length + 1) text.data with
  | some (v, rest) => if skipWs rest = [] then some v else none
  | none => none

end JSON

/-- A property name that is not an array index: it has a character that is no digit. -/
def plainKey (k : String) : Bool := k.data.any fun c => !c.isDigit

mutual
/-- The values whose objects have distinct property names, none of them an array index:
for these the order of an object's properties is the order of the literal. -/
def JsVal.plain : JsVal → Bool
  | .str _ => true
  | .arr xs => plainElems xs
  | .obj kvs => (kvs.map Prod.fst).Nodup && (kvs.map Prod.fst).all plainKey && plainFields kvs
/-- Every element is plain. -/
def plainElems : List JsVal → Bool
  | [] => true
  | x :: r => x.plain && plainElems r
/-- Every property value is plain. -/
def plainFields : List (String × JsVal) → Bool
  | [] => true
  | (_, v) :: r => v.plain && plainFields r
end


/-! ## Evaluation -/

theorem exports_ok_iff (fullYear : Int) (resolve : String → Except JsError String) (r : JsVal) :
    module.exports fullYear resolve = .ok r ↔
      ∃ s c, resolve "./sidebars.js" = .ok s ∧ resolve "./src/css/custom.css" = .ok c ∧
        r = config fullYear s c := by
  unfold module.exports
  cases h1 : resolve "./sidebars.js" with
  | error e => simp [bind, Except.bind]
  | ok s =>
    cases h2 : resolve "./src/css/custom.css" with
    | error e => simp [bind, Except.bind]
    | ok c =>
      simp [bind, Except.bind, pure, Except.pure]
      exact eq_comm

theorem config_plain (fullYear : Int) (s c : String) : (config fullYear s c).plain = true := rfl

/-! ## Round trip of the JSON model -/

namespace JSON

theorem skipWs_cons_of_not_ws (c : Char) (r : List Char) (h : isWs c = false) :
    skipWs (c :: r) = c :: r := by
  simp [skipWs, h]

theorem hexVal_hexDigit : ∀ k, k < 16 → hexVal (hexDigit k) = some k := by
  decide

theorem parseChars_unicodeEscape (c : Char) (tail : List Char) (h : c.toNat < 0x20) :
    parseChars (unicodeEscape c ++ tail) =
      (parseChars tail).map fun p => (c :: p.1, p.2) := by
  have h1 : c.toNat / 4096 % 16 = 0 := by omega
  have h2 : c.toNat / 256 % 16 = 0 := by omega
  have h3 : c.toNat / 16 % 16 < 16 := by omega
  have h4 : c.toNat % 16 < 16 := by omega
  have e0 : hexVal (hexDigit 0) = some 0 := hexVal_hexDigit 0 (by decide)
  have hn : ((0 * 16 + 0) * 16 + c.toNat / 16 % 16) * 16 + c.toNat % 16 = c.toNat := by omega
  simp only [unicodeEscape, h1, h2, List.cons_append, List.nil_append]
  rw [parseChars]
  simp only [show ¬ ('\\' = '\"') by decide, if_false, if_true]
  simp only [e0, hexVal_hexDigit _ h3, hexVal_hexDigit _ h4, hn]
  have hs : ¬ (0xD800 ≤ c.toNat ∧ c.toNat ≤ 0xDFFF) := by omega
  simp only [hs, if_false, Char.ofNat_toNat]

theorem parseChars_quoteChar (c : Char) (tail : List Char) :
    parseChars (quoteChar c ++ tail) = (parseChars tail).map fun p => (c :: p.1, p.2) := by
  unfold quoteChar
  split_ifs with h1 h2 h3 h4 h5 h6 h7 h8
  · subst h1; rw [List.cons_append, parseChars.eq_def]; simp [unescape]
  · subst h2; rw [List.cons_append, parseChars.eq_def]; simp [unescape]
  · subst h3; rw [List.cons_append, parseChars.eq_def]; simp [unescape]
  · subst h4; rw [List.cons_append, parseChars.eq_def]; simp [unescape]
  · subst h5; rw [List.cons_append, parseChars.eq_def]; simp [unescape]
  · subst h6; rw [List.cons_append, parseChars.eq_def]; simp [unescape]
  · subst h7; rw [List.cons_append, parseChars.eq_def]; simp [unescape]
  · exact parseChars_unicodeEscape c tail h8
  · rw [List.singleton_append, parseChars.eq_def]; simp [h6, h7, h8]

theorem parseChars_quoteChars (s rest : List Char) :
    parseChars (quoteChars s ++ '\"' :: rest) = some (s, rest) := by
  induction s with
  | nil => rw [quoteChars, List.nil_append, parseChars.eq_def]; simp
  | cons c s ih =>
    rw [quoteChars, List.append_assoc, parseChars_quoteChar, ih]
    rfl

theorem setKey_of_not_mem (acc : List (String × JsVal)) (k : String) (v : JsVal)
    (h : k ∉ acc.map Prod.fst) : setKey acc k v = acc ++ [(k, v)] := by
  induction acc with
  | nil => rfl
  | cons p acc ih =>
    obtain ⟨k1, v1⟩ := p
    simp only [List.map_cons, List.mem_cons, not_or] at h
    simp only [setKey, if_neg (Ne.symm h.1), ih h.2, List.cons_append]

theorem foldl_setKey (kvs acc : List (String × JsVal))
    (h : ((acc ++ kvs).map Prod.fst).Nodup) :
    kvs.foldl (fun a p => setKey a p.1 p.2) acc = acc ++ kvs := by
  induction kvs generalizing acc with
  | nil => simp
  | cons p kvs ih =>
    have hp : p.1 ∉ acc.map Prod.fst := by
      intro hmem
      rw [List.map_append, List.map_cons] at h
      exact (List.nodup_append.1 h).2.2 hmem (List.mem_cons_self _ _)
    rw [List.foldl_cons, setKey_of_not_mem acc p.1 p.2 hp, ih]
    · simp
    · simpa using h

theorem mkObject_of_nodup (kvs : List (String × JsVal)) (h : (kvs.map Prod.fst).Nodup) :
    mkObject kvs = kvs := by
  unfold mkObject
  rw [foldl_setKey kvs [] (by simpa using h)]
  rfl

/-- The first character of the text of a value: a quote, a bracket or a brace. -/
theorem ser_head (v : JsVal) :
    ∃ c t, ser v = c :: t ∧ (c = '\"' ∨ c = '[' ∨ c = '\x7b') := by
  cases v with
  | str s => exact ⟨_, _, by rw [ser, quote], Or.inl rfl⟩
  | arr xs => exact ⟨_, _, by rw [ser], Or.inr (Or.inl rfl)⟩
  | obj kvs => exact ⟨_, _, by rw [ser], Or.inr (Or.inr rfl)⟩

end JSON

namespace JSON

theorem ser_length_pos (v : JsVal) : 0 < (ser v).length := by
  obtain ⟨c, t, hc, -⟩ := ser_head v
  rw [hc]; simp

theorem skipWs_ser (v : JsVal) (rest : List Char) :
    ∃ c t, ser v ++ rest = c :: t ∧ skipWs (ser v ++ rest) = c :: t ∧
      c ≠ ']' ∧ c ≠ '\x7d' := by
  obtain ⟨c, t, hc, h⟩ := ser_head v
  refine ⟨c, t ++ rest, by rw [hc]; rfl, ?_, ?_, ?_⟩
  · rw [hc, List.cons_append]
    rcases h with rfl | rfl | rfl <;> exact skipWs_cons_of_not_ws _ _ (by decide)
  · rcases h with rfl | rfl | rfl <;> decide
  · rcases h with rfl | rfl | rfl <;> decide

theorem ser_arr_length (xs : List JsVal) : (ser (.arr xs)).length = (serElems xs).length + 2 := by
  rw [ser]; simp

theorem ser_obj_length (kvs : List (String × JsVal)) :
    (ser (.obj kvs)).length = (serFields kvs).length + 2 := by
  rw [ser]; simp

theorem skipWs_serElems (x : JsVal) (xs : List JsVal) (tail : List Char) :
    ∃ c t, serElems (x :: xs) ++ tail = c :: t ∧
      skipWs (serElems (x :: xs) ++ tail) = c :: t ∧ c ≠ ']' := by
  cases xs with
  | nil =>
    obtain ⟨c, t, h1, h2, h3, -⟩ := skipWs_ser x tail
    exact ⟨c, t, by rw [serElems, h1], by rw [serElems, h2], h3⟩
  | cons y ys =>
    obtain ⟨c, t, h1, h2, h3, -⟩ := skipWs_ser x (',' :: serElems (y :: ys) ++ tail)
    refine ⟨c, t, ?_, ?_, h3⟩
    · rw [serElems, List.append_assoc, ← h1]
    · rw [serElems, List.append_assoc, ← h2]

theorem serFields_head (p : String × JsVal) (ps : List (String × JsVal)) (tail : List Char) :
    ∃ t, serFields (p :: ps) ++ tail = '\"' :: t := by
  obtain ⟨k, v⟩ := p
  cases ps with
  | nil => exact ⟨_, by rw [serFields, quote]; rfl⟩
  | cons q qs => exact ⟨_, by rw [serFields, quote]; rfl⟩

theorem parse_ser_fuel : ∀ n : Nat,
    (∀ v rest, v.plain = true → (ser v).length ≤ n →
      parseValue n (ser v ++ rest) = some (v, rest)) ∧
    (∀ x xs rest, plainElems (x :: xs) = true → (serElems (x :: xs)).length + 1 ≤ n →
      parseElems n (serElems (x :: xs) ++ ']' :: rest) = some (x :: xs, rest)) ∧
    (∀ p ps rest, plainFields (p :: ps) = true → (serFields (p :: ps)).length + 1 ≤ n →
      parseFields n (serFields (p :: ps) ++ '\x7d' :: rest) = some (p :: ps, rest)) := by
  intro n
  induction n with
  | zero =>
    refine ⟨?_, ?_, ?_⟩
    · intro v rest _ hlen
      have := ser_length_pos v
      omega
    · intro x xs rest _ hlen
      omega
    · intro p ps rest _ hlen
      omega
  | succ n ih =>
    obtain ⟨ihV, ihE, ihF⟩ := ih
    refine ⟨?_, ?_, ?_⟩
    · intro v rest hp hlen
      cases v with
      | str s =>
        rw [ser, quote, List.cons_append, List.append_assoc, parseValue,
          skipWs_cons_of_not_ws _ _ (by decide)]
        simp only [if_true, List.singleton_append, parseChars_quoteChars, Option.map_some']
      | arr xs =>
        cases xs with
        | nil =>
          rw [ser, serElems, List.nil_append, List.cons_append, List.singleton_append,
            parseValue, skipWs_cons_of_not_ws _ _ (by decide)]
          simp only [show ¬ ('[' = '\"') by decide, if_false, if_true]
          rw [skipWs_cons_of_not_ws _ _ (by decide)]
          simp
        | cons x xs =>
          rw [ser_arr_length] at hlen
          rw [JsVal.plain] at hp
          obtain ⟨c, t, hct, hskip, hne⟩ := skipWs_serElems x xs (']' :: rest)
          rw [ser, List.cons_append, List.append_assoc, List.singleton_append, parseValue,
            skipWs_cons_of_not_ws _ _ (by decide)]
          simp only [show ¬ ('[' = '\"') by decide, if_false, if_true, hskip, if_neg hne]
          rw [← hct, ihE x xs rest hp (by omega)]
          rfl
      | obj kvs =>
        cases kvs with
        | nil =>
          rw [ser, serFields, List.nil_append, List.cons_append, List.singleton_append,
            parseValue, skipWs_cons_of_not_ws _ _ (by decide)]
          simp only [show ¬ ('\x7b' = '\"') by decide, show ¬ ('\x7b' = '[') by decide,
            if_false, if_true]
          rw [skipWs_cons_of_not_ws _ _ (by decide)]
          simp
        | cons p ps =>
          rw [ser_obj_length] at hlen
          rw [JsVal.plain] at hp
          simp only [Bool.and_eq_true, decide_eq_true_eq] at hp
          obtain ⟨⟨hnd, -⟩, hpf⟩ := hp
          obtain ⟨t, ht⟩ := serFields_head p ps ('\x7d' :: rest)
          rw [ser, List.cons_append, List.append_assoc, List.singleton_append, parseValue,
            skipWs_cons_of_not_ws _ _ (by decide)]
          simp only [show ¬ ('\x7b' = '\"') by decide, show ¬ ('\x7b' = '[') by decide,
            if_false, if_true]
          rw [ht, skipWs_cons_of_not_ws _ _ (by decide)]
          simp only [show ¬ ('\"' = '\x7d') by decide, if_false]
          rw [← ht, ihF p ps rest hpf (by omega)]
          simp only [Option.map_some', mkObject_of_nodup _ hnd]
    · intro x xs rest hp hlen
      rw [plainElems] at hp
      simp only [Bool.and_eq_true] at hp
      cases xs with
      | nil =>
        rw [serElems] at hlen
        rw [serElems, parseElems, ihV x _ hp.1 (by omega)]
        simp only []
        rw [skipWs_cons_of_not_ws _ _ (by decide)]
        simp
      | cons y ys =>
        rw [serElems, List.length_append, List.length_cons] at hlen
        rw [serElems, List.append_assoc, List.cons_append, parseElems, ihV x _ hp.1 (by omega)]
        simp only []
        rw [skipWs_cons_of_not_ws _ _ (by decide)]
        simp only [if_true]
        rw [ihE y ys rest hp.2 (by omega)]
        rfl
    · intro p ps rest hp hlen
      obtain ⟨k, v⟩ := p
      rw [plainFields] at hp
      simp only [Bool.and_eq_true] at hp
      cases ps with
      | nil =>
        rw [serFields, quote] at hlen
        simp only [List.length_append, List.length_cons, List.length_nil] at hlen
        rw [serFields, quote]
        simp only [List.cons_append, List.append_assoc, List.nil_append]
        rw [parseFields, skipWs_cons_of_not_ws _ _ (by decide)]
        simp only [if_true, parseChars_quoteChars]
        rw [skipWs_cons_of_not_ws _ _ (by decide)]
        simp only [if_true]
        rw [ihV v _ hp.1 (by omega)]
        simp only []
        rw [skipWs_cons_of_not_ws _ _ (by decide)]
        simp
      | cons q qs =>
        rw [serFields, quote] at hlen
        simp only [List.length_append, List.length_cons, List.length_nil] at hlen
        rw [serFields, quote]
        simp only [List.cons_append, List.append_assoc, List.nil_append]
        rw [parseFields, skipWs_cons_of_not_ws _ _ (by decide)]
        simp only [if_true, parseChars_quoteChars]
        rw [skipWs_cons_of_not_ws _ _ (by decide)]
        simp only [if_true]
        rw [ihV v _ hp.1 (by omega)]
        simp only []
        rw [skipWs_cons_of_not_ws _ _ (by decide)]
        simp only [if_true]
        rw [ihF q qs rest hp.2 (by omega)]
        rfl

end JSON

namespace JSON

/-- Parsing the text of a plain value gives the value back. -/
theorem parse_stringify (v : JsVal) (h : v.plain = true) : parse (stringify v) = some v := by
  have hfuel := (parse_ser_fuel ((ser v).length + 1)).1 v [] h (Nat.le_succ _)
  rw [List.append_nil] at hfuel
  unfold parse stringify
  show (match parseValue ((ser v).length + 1) (ser v) with
    | some (v, rest) => if skipWs rest = [] then some v else none
    | none => none) = some v
  rw [hfuel]
  rfl

end JSON

/-! ## The claims -/

/-- C1: for every evaluation year and every successful resolution of the two required
paths, the exported record has each of the nine required top-level keys. -/
theorem C1_required_keys (fullYear : Int) (resolve : String → Except JsError String)
    (r : JsVal) (h : module.exports fullYear resolve = .ok r) :
    ∀ k ∈ requiredKeys, k ∈ r.keys ∧ r.has k = true := by
  obtain ⟨s, c, -, -, rfl⟩ := (exports_ok_iff fullYear resolve r).1 h
  intro k hk
  simp only [requiredKeys, List.mem_cons, List.mem_singleton, List.not_mem_nil, or_false] at hk
  rcases hk with rfl | rfl | rfl | rfl | rfl | rfl | rfl | rfl | rfl <;>
    exact ⟨by simp [config, JsVal.keys], rfl⟩

/-- C1 at the year 2020 on the site of `resolveSite`. -/
theorem C1_required_keys_witness :
    module.exports 2020 resolveSite = .ok (siteConfig 2020) ∧
      ∀ k ∈ requiredKeys, k ∈ (siteConfig 2020).keys ∧ (siteConfig 2020).has k = true :=
  ⟨rfl, C1_required_keys 2020 resolveSite (siteConfig 2020) rfl⟩

/-- C2: every entry of `themeConfig.navbar.links` has a non-empty label, exactly one of
`to` and `href`, a position that is `left` or `right`, and an `activeBasePath` only
together with `to`. -/
theorem C2_navbar_links (fullYear : Int) (resolve : String → Except JsError String)
    (r : JsVal) (h : module.exports fullYear resolve = .ok r) :
    ∃ links, navbarLinks r = some (arr links) ∧ links ≠ [] ∧
      ∀ e ∈ links,
        (∃ l, e.get? "label" = some (str l) ∧ l ≠ "") ∧
        (e.has "to" ≠ e.has "href") ∧
        (e.get? "position" = some (str "left") ∨ e.get? "position" = some (str "right")) ∧
        (e.has "activeBasePath" = true → e.has "to" = true) := by
  obtain ⟨s, c, -, -, rfl⟩ := (exports_ok_iff fullYear resolve r).1 h
  refine ⟨_, rfl, by simp, ?_⟩
  intro e he
  simp only [List.mem_cons, List.mem_singleton, List.not_mem_nil, or_false] at he
  rcases he with rfl | rfl | rfl
  · exact ⟨⟨"Docs", rfl, by decide⟩, by decide, Or.inl rfl, fun _ => rfl⟩
  · exact ⟨⟨"Blog", rfl, by decide⟩, by decide, Or.inl rfl, fun _ => rfl⟩
  · exact ⟨⟨"GitHub", rfl, by decide⟩, by decide, Or.inr rfl, by decide⟩

/-- C2 at the year 2021 on the site of `resolveSite`. -/
theorem C2_navbar_links_witness :
    module.exports 2021 resolveSite = .ok (siteConfig 2021) ∧
    ∃ links, navbarLinks (siteConfig 2021) = some (arr links) ∧ links ≠ [] ∧
      ∀ e ∈ links,
        (∃ l, e.get? "label" = some (str l) ∧ l ≠ "") ∧
        (e.has "to" ≠ e.has "href") ∧
        (e.get? "position" = some (str "left") ∨ e.get? "position" = some (str "right")) ∧
        (e.has "activeBasePath" = true → e.has "to" = true) :=
  ⟨rfl, C2_navbar_links 2021 resolveSite (siteConfig 2021) rfl⟩

/-- C3: every element of `themeConfig.footer.links` is a group with a title and a list of
items, and every item has a non-empty label and exactly one of `to` and `href`. -/
theorem C3_footer_links (fullYear : Int) (resolve : String → Except JsError String)
    (r : JsVal) (h : module.exports fullYear resolve = .ok r) :
    ∃ groups, footerLinks r = some (arr groups) ∧ groups ≠ [] ∧
      ∀ g ∈ groups,
        (∃ t, g.get? "title" = some (str t)) ∧
        ∃ items, g.get? "items" = some (arr items) ∧
          ∀ e ∈ items,
            (∃ l, e.get? "label" = some (str l) ∧ l ≠ "") ∧
            (e.has "to" ≠ e.has "href") := by
  obtain ⟨s, c, -, -, rfl⟩ := (exports_ok_iff fullYear resolve r).1 h
  refine ⟨_, rfl, by simp, ?_⟩
  intro g hg
  simp only [List.mem_cons, List.mem_singleton, List.not_mem_nil, or_false] at hg
  rcases hg with rfl | rfl
  · refine ⟨⟨"Docs", rfl⟩, _, rfl, ?_⟩
    intro e he
    simp only [List.mem_cons, List.mem_singleton, List.not_mem_nil, or_false] at he
    subst he
    exact ⟨⟨"Style Guide", rfl, by decide⟩, by decide⟩
  · refine ⟨⟨"Social", rfl⟩, _, rfl, ?_⟩
    intro e he
    simp only [List.mem_cons, List.mem_singleton, List.not_mem_nil, or_false] at he
    rcases he with rfl | rfl | rfl
    · exact ⟨⟨"Blog", rfl, by decide⟩, by decide⟩
    · exact ⟨⟨"GitHub", rfl, by decide⟩, by decide⟩
    · exact ⟨⟨"Twitter", rfl, by decide⟩, by decide⟩

/-- C3 at the year 2022 on the site of `resolveSite`. -/
theorem C3_footer_links_witness :
    module.exports 2022 resolveSite = .ok (siteConfig 2022) ∧
    ∃ groups, footerLinks (siteConfig 2022) = some (arr groups) ∧ groups ≠ [] ∧
      ∀ g ∈ groups,
        (∃ t, g.get? "title" = some (str t)) ∧
        ∃ items, g.get? "items" = some (arr items) ∧
          ∀ e ∈ items,
            (∃ l, e.get? "label" = some (str l) ∧ l ≠ "") ∧
            (e.has "to" ≠ e.has "href") :=
  ⟨rfl, C3_footer_links 2022 resolveSite (siteConfig 2022) rfl⟩

/-- C4: `presets` has exactly one element, the pair of the name
`@docusaurus/preset-classic` and an options record whose only groups are `blog`, `docs`
and `theme`, with `blog.path = ./blog`, `blog.routeBasePath = /`, `docs.path = ./docs`,
`docs.sidebarPath` the resolution of `./sidebars.js` and `theme.customCss` the resolution
of `./src/css/custom.css`. -/
theorem C4_presets (fullYear : Int) (resolve : String → Except JsError String)
    (r : JsVal) (h : module.exports fullYear resolve = .ok r) :
    ∃ opts sidebarPath customCss,
      resolve "./sidebars.js" = .ok sidebarPath ∧
      resolve "./src/css/custom.css" = .ok customCss ∧
      r.get? "presets" = some (arr [arr [str "@docusaurus/preset-classic", opts]]) ∧
      opts.keys = ["blog", "docs", "theme"] ∧
      opts.get? "blog" = some (obj [("path", str "./blog"), ("routeBasePath", str "/")]) ∧
      opts.get? "docs" =
        some (obj [("path", str "./docs"), ("sidebarPath", str sidebarPath)]) ∧
      opts.get? "theme" = some (obj [("customCss", str customCss)]) := by
  obtain ⟨s, c, hs, hc, rfl⟩ := (exports_ok_iff fullYear resolve r).1 h
  exact ⟨_, s, c, hs, hc, rfl, rfl, rfl, rfl, rfl⟩

/-- C4 at the year 2023 on the site of `resolveSite`. -/
theorem C4_presets_witness :
    module.exports 2023 resolveSite = .ok (siteConfig 2023) ∧
    ∃ opts sidebarPath customCss,
      resolveSite "./sidebars.js" = .ok sidebarPath ∧
      resolveSite "./src/css/custom.css" = .ok customCss ∧
      (siteConfig 2023).get? "presets" =
        some (arr [arr [str "@docusaurus/preset-classic", opts]]) ∧
      opts.keys = ["blog", "docs", "theme"] ∧
      opts.get? "blog" = some (obj [("path", str "./blog"), ("routeBasePath", str "/")]) ∧
      opts.get? "docs" =
        some (obj [("path", str "./docs"), ("sidebarPath", str sidebarPath)]) ∧
      opts.get? "theme" = some (obj [("customCss", str customCss)]) :=
  ⟨rfl, C4_presets 2023 resolveSite (siteConfig 2023) rfl⟩

/-- C5: for every evaluation year `Y` the footer copyright string is `Copyright © `,
then the decimal representation of `Y`, then ` beka.si, Inc. Built with Docusaurus.`; in
particular it contains the decimal representation of `Y`. -/
theorem C5_copyright_year (fullYear : Int) (resolve : String → Except JsError String)
    (r : JsVal) (h : module.exports fullYear resolve = .ok r) :
    r.path? ["themeConfig", "footer", "copyright"] =
        some (str ("Copyright © " ++ toString fullYear ++
          " beka.si, Inc. Built with Docusaurus.")) ∧
    ∃ text before after, r.path? ["themeConfig", "footer", "copyright"] = some (str text) ∧
      text = before ++ toString fullYear ++ after := by
  obtain ⟨s, c, -, -, rfl⟩ := (exports_ok_iff fullYear resolve r).1 h
  exact ⟨rfl, _, _, _, rfl, rfl⟩

/-- C5 at the year 2024 on the site of `resolveSite`: the copyright string reads
`Copyright © 2024 beka.si, Inc. Built with Docusaurus.`. -/
theorem C5_copyright_year_witness :
    module.exports 2024 resolveSite = .ok (siteConfig 2024) ∧
    (siteConfig 2024).path? ["themeConfig", "footer", "copyright"] =
      some (str "Copyright © 2024 beka.si, Inc. Built with Docusaurus.") :=
  ⟨rfl, by
    have h := (C5_copyright_year 2024 resolveSite (siteConfig 2024) rfl).1
    rw [h]
    exact congrArg (fun t => some (str t)) (by decide)⟩

/-- C6 as stated fails: on a site without `sidebars.js`, evaluation in the year 2020
throws the resolver's error and yields no record. -/
theorem C6_unresolvable_path_throws :
    resolveNoSidebars "./sidebars.js" = .error "Cannot find module ./sidebars.js" ∧
    module.exports 2020 resolveNoSidebars = .error "Cannot find module ./sidebars.js" ∧
    ¬ ∃ r, module.exports 2020 resolveNoSidebars = .ok r := by
  refine ⟨rfl, rfl, ?_⟩
  rintro ⟨r, hr⟩
  have herr : module.exports 2020 resolveNoSidebars =
      .error "Cannot find module ./sidebars.js" := rfl
  rw [herr] at hr
  cases hr

/-- C6, amended: evaluation yields a record exactly when both `./sidebars.js` and
`./src/css/custom.css` resolve, and the record is then the literal filled with the two
resolved paths; when `./sidebars.js` does not resolve, the resolver's error is the outcome,
and when only `./src/css/custom.css` does not resolve, its error is. The file adds no
check of its own: no other outcome exists. -/
theorem C6_record_iff_paths_resolve (fullYear : Int)
    (resolve : String → Except JsError String) :
    ((∃ r, module.exports fullYear resolve = .ok r) ↔
      ∃ s c, resolve "./sidebars.js" = .ok s ∧ resolve "./src/css/custom.css" = .ok c) ∧
    (∀ s c, resolve "./sidebars.js" = .ok s ∧ resolve "./src/css/custom.css" = .ok c →
      module.exports fullYear resolve = .ok (config fullYear s c)) ∧
    (∀ e, resolve "./sidebars.js" = .error e → module.exports fullYear resolve = .error e) ∧
    (∀ s e, resolve "./sidebars.js" = .ok s ∧ resolve "./src/css/custom.css" = .error e →
      module.exports fullYear resolve = .error e) := by
  refine ⟨⟨?_, ?_⟩, ?_, ?_, ?_⟩
  · rintro ⟨r, hr⟩
    obtain ⟨s, c, hs, hc, -⟩ := (exports_ok_iff fullYear resolve r).1 hr
    exact ⟨s, c, hs, hc⟩
  · rintro ⟨s, c, hs, hc⟩
    exact ⟨_, (exports_ok_iff fullYear resolve _).2 ⟨s, c, hs, hc, rfl⟩⟩
  · rintro s c ⟨hs, hc⟩
    exact (exports_ok_iff fullYear resolve _).2 ⟨s, c, hs, hc, rfl⟩
  · intro e he
    simp [module.exports, he, bind, Except.bind]
  · rintro s e ⟨hs, he⟩
    simp [module.exports, hs, he, bind, Except.bind]

/-- C7: serialising the exported record to JSON and parsing the text gives the record
back, and serialising the parsed record gives the same text again. -/
theorem C7_json_round_trip (fullYear : Int) (resolve : String → Except JsError String)
    (r : JsVal) (h : module.exports fullYear resolve = .ok r) :
    JSON.parse (JSON.stringify r) = some r ∧
    ∀ r2, JSON.parse (JSON.stringify r) = some r2 → JSON.stringify r2 = JSON.stringify r := by
  obtain ⟨s, c, -, -, rfl⟩ := (exports_ok_iff fullYear resolve r).1 h
  have hrt := JSON.parse_stringify _ (config_plain fullYear s c)
  refine ⟨hrt, ?_⟩
  intro r2 h2
  rw [hrt] at h2
  rw [← Option.some.inj h2]

/-- C7 at the year 2025 on the site of `resolveSite`. -/
theorem C7_json_round_trip_witness :
    module.exports 2025 resolveSite = .ok (siteConfig 2025) ∧
    JSON.parse (JSON.stringify (siteConfig 2025)) = some (siteConfig 2025) ∧
    ∀ r2, JSON.parse (JSON.stringify (siteConfig 2025)) = some r2 →
      JSON.stringify r2 = JSON.stringify (siteConfig 2025) :=
  ⟨rfl, C7_json_round_trip 2025 resolveSite (siteConfig 2025) rfl⟩

/-- C8: `url` is `https://` followed by a non-empty host with no slash after it, `baseUrl`
begins and ends with a slash, and every `href` of the navbar and footer entries is an
absolute `https://` URL. -/
theorem C8_urls (fullYear : Int) (resolve : String → Except JsError String)
    (r : JsVal) (h : module.exports fullYear resolve = .ok r) :
    (∃ url host, r.get? "url" = some (str url) ∧ url.data = "https://".data ++ host ∧
      host ≠ [] ∧ '/' ∉ host) ∧
    (∃ base, r.get? "baseUrl" = some (str base) ∧ base.data.head? = some '/' ∧
      base.data.getLast? = some '/') ∧
    (∀ e ∈ navbarEntries r ++ footerItems r, ∀ v, e.get? "href" = some v →
      ∃ u, v = str u ∧ isHttpsUrl u = true) ∧
    hrefTargets (navbarEntries r ++ footerItems r) =
      ["https://github.com/Bekaxp/docu", "https://github.com/Bekaxp",
        "https://twitter.com/Beekaxp"] := by
  obtain ⟨s, c, -, -, rfl⟩ := (exports_ok_iff fullYear resolve r).1 h
  refine ⟨⟨_, "www.beka.si".data, rfl, rfl, by decide, by decide⟩, ⟨_, rfl, rfl, rfl⟩, ?_,
    rfl⟩
  intro e he v hv
  have he2 : e ∈ [obj [("to", str "docs/greeting"), ("activeBasePath", str "docs"),
        ("label", str "Docs"), ("position", str "left")],
      obj [("to", str "/"), ("label", str "Blog"), ("position", str "left")],
      obj [("href", str "https://github.com/Bekaxp/docu"), ("label", str "GitHub"),
        ("position", str "right")],
      obj [("label", str "Style Guide"), ("to", str "doc1")],
      obj [("label", str "Blog"), ("to", str "/")],
      obj [("label", str "GitHub"), ("href", str "https://github.com/Bekaxp")],
      obj [("label", str "Twitter"), ("href", str "https://twitter.com/Beekaxp")]] := he
  simp only [List.mem_cons, List.mem_singleton, List.not_mem_nil, or_false] at he2
  rcases he2 with rfl | rfl | rfl | rfl | rfl | rfl | rfl
  · exact Option.noConfusion (show (none : Option JsVal) = some v from hv)
  · exact Option.noConfusion (show (none : Option JsVal) = some v from hv)
  · obtain rfl := Option.some.inj
      (show some (str "https://github.com/Bekaxp/docu") = some v from hv)
    exact ⟨_, rfl, by decide⟩
  · exact Option.noConfusion (show (none : Option JsVal) = some v from hv)
  · exact Option.noConfusion (show (none : Option JsVal) = some v from hv)
  · obtain rfl := Option.some.inj
      (show some (str "https://github.com/Bekaxp") = some v from hv)
    exact ⟨_, rfl, by decide⟩
  · obtain rfl := Option.some.inj
      (show some (str "https://twitter.com/Beekaxp") = some v from hv)
    exact ⟨_, rfl, by decide⟩

/-- C8 at the year 2026 on the site of `resolveSite`. -/
theorem C8_urls_witness :
    module.exports 2026 resolveSite = .ok (siteConfig 2026) ∧
    (∃ url host, (siteConfig 2026).get? "url" = some (str url) ∧
      url.data = "https://".data ++ host ∧ host ≠ [] ∧ '/' ∉ host) ∧
    (∃ base, (siteConfig 2026).get? "baseUrl" = some (str base) ∧
      base.data.head? = some '/' ∧ base.data.getLast? = some '/') ∧
    (∀ e ∈ navbarEntries (siteConfig 2026) ++ footerItems (siteConfig 2026),
      ∀ v, e.get? "href" = some v → ∃ u, v = str u ∧ isHttpsUrl u = true) ∧
    hrefTargets (navbarEntries (siteConfig 2026) ++ footerItems (siteConfig 2026)) =
      ["https://github.com/Bekaxp/docu", "https://github.com/Bekaxp",
        "https://twitter.com/Beekaxp"] :=
  ⟨rfl, C8_urls 2026 resolveSite (siteConfig 2026) rfl⟩

/-- C9 fails on the code: the page-link targets of the record are `docs/greeting`, `/`,
`doc1` and `/`, and the footer target `doc1` (group Docs, item Style Guide) is neither the
blog route `/` nor below `docs/`, while the navbar entry for the docs has the target
`docs/greeting` and the base path `docs`. -/
theorem C9_footer_target_doc1 :
    module.exports 2020 resolveSite = .ok (siteConfig 2020) ∧
    (siteConfig 2020).path? ["themeConfig", "footer", "links"] =
      some (arr [
        obj [("title", str "Docs"),
          ("items", arr [obj [("label", str "Style Guide"), ("to", str "doc1")]])],
        obj [("title", str "Social"),
          ("items", arr [obj [("label", str "Blog"), ("to", str "/")],
            obj [("label", str "GitHub"), ("href", str "https://github.com/Bekaxp")],
            obj [("label", str "Twitter"), ("href", str "https://twitter.com/Beekaxp")]])]]) ∧
    toTargets (navbarEntries (siteConfig 2020)) = ["docs/greeting", "/"] ∧
    toTargets (footerItems (siteConfig 2020)) = ["doc1", "/"] ∧
    pageTargets (siteConfig 2020) = ["docs/greeting", "/", "doc1", "/"] ∧
    ¬ ∀ t ∈ pageTargets (siteConfig 2020), t = "/" ∨ beginsWith t "docs/" = true := by
  refine ⟨rfl, rfl, rfl, rfl, rfl, ?_⟩
  intro hall
  have hmem : "doc1" ∈ pageTargets (siteConfig 2020) := by
    show "doc1" ∈ ["docs/greeting", "/", "doc1", "/"]
    simp
  rcases hall "doc1" hmem with h | h
  · exact absurd h (by decide)
  · exact absurd h (by decide)

/-- C10: the navbar entry labelled GitHub links to `https://github.com/` followed by
`organizationName`, a slash and `projectName`, and the footer item labelled GitHub links to
`https://github.com/` followed by `organizationName`. -/
theorem C10_github_links (fullYear : Int) (resolve : String → Except JsError String)
    (r : JsVal) (h : module.exports fullYear resolve = .ok r) :
    ∃ org proj, r.get? "organizationName" = some (str org) ∧
      r.get? "projectName" = some (str proj) ∧
      (∃ e ∈ navbarEntries r, e.get? "label" = some (str "GitHub")) ∧
      (∀ e ∈ navbarEntries r, e.get? "label" = some (str "GitHub") →
        e.get? "href" = some (str ("https://github.com/" ++ org ++ "/" ++ proj))) ∧
      (∃ e ∈ footerItems r, e.get? "label" = some (str "GitHub")) ∧
      (∀ e ∈ footerItems r, e.get? "label" = some (str "GitHub") →
        e.get? "href" = some (str ("https://github.com/" ++ org))) := by
  obtain ⟨s, c, -, -, rfl⟩ := (exports_ok_iff fullYear resolve r).1 h
  refine ⟨"Bekaxp", "docu", rfl, rfl, ⟨_, List.mem_of_mem_getLast? rfl, rfl⟩, ?_,
    ⟨obj [("label", str "GitHub"), ("href", str "https://github.com/Bekaxp")], ?_, rfl⟩, ?_⟩
  · intro e he hl
    have he2 : e ∈ [obj [("to", str "docs/greeting"), ("activeBasePath", str "docs"),
          ("label", str "Docs"), ("position", str "left")],
        obj [("to", str "/"), ("label", str "Blog"), ("position", str "left")],
        obj [("href", str "https://github.com/Bekaxp/docu"), ("label", str "GitHub"),
          ("position", str "right")]] := he
    simp only [List.mem_cons, List.mem_singleton, List.not_mem_nil, or_false] at he2
    rcases he2 with rfl | rfl | rfl
    · have h2 : some (str "Docs") = some (str "GitHub") := hl
      simp at h2
    · have h2 : some (str "Blog") = some (str "GitHub") := hl
      simp at h2
    · rfl
  · show _ ∈ [obj [("label", str "Style Guide"), ("to", str "doc1")],
        obj [("label", str "Blog"), ("to", str "/")],
        obj [("label", str "GitHub"), ("href", str "https://github.com/Bekaxp")],
        obj [("label", str "Twitter"), ("href", str "https://twitter.com/Beekaxp")]]
    simp
  · intro e he hl
    have he2 : e ∈ [obj [("label", str "Style Guide"), ("to", str "doc1")],
        obj [("label", str "Blog"), ("to", str "/")],
        obj [("label", str "GitHub"), ("href", str "https://github.com/Bekaxp")],
        obj [("label", str "Twitter"), ("href", str "https://twitter.com/Beekaxp")]] := he
    simp only [List.mem_cons, List.mem_singleton, List.not_mem_nil, or_false] at he2
    rcases he2 with rfl | rfl | rfl | rfl
    · have h2 : some (str "Style Guide") = some (str "GitHub") := hl
      simp at h2
    · have h2 : some (str "Blog") = some (str "GitHub") := hl
      simp at h2
    · rfl
    · have h2 : some (str "Twitter") = some (str "GitHub") := hl
      simp at h2

/-- C10 at the year 2027 on the site of `resolveSite`. -/
theorem C10_github_links_witness :
    module.exports 2027 resolveSite = .ok (siteConfig 2027) ∧
    ∃ org proj, (siteConfig 2027).get? "organizationName" = some (str org) ∧
      (siteConfig 2027).get? "projectName" = some (str proj) ∧
      (∃ e ∈ navbarEntries (siteConfig 2027), e.get? "label" = some (str "GitHub")) ∧
      (∀ e ∈ navbarEntries (siteConfig 2027), e.get? "label" = some (str "GitHub") →
        e.get? "href" = some (str ("https://github.com/" ++ org ++ "/" ++ proj))) ∧
      (∃ e ∈ footerItems (siteConfig 2027), e.get? "label" = some (str "GitHub")) ∧
      (∀ e ∈ footerItems (siteConfig 2027), e.get? "label" = some (str "GitHub") →
        e.get? "href" = some (str ("https://github.com/" ++ org))) :=
  ⟨rfl, C10_github_links 2027 resolveSite (siteConfig 2027) rfl⟩
